import Mathlib

/-!
Shallow embedding of the `pci_types` crate (rust-osdev/pci_types).

Machine integers (`u8`/`u16`/`u32`/`u64`) are modelled as `Nat`, with explicit
`% 2 ^ w` truncation at the points where the Rust code can overflow or wrap.
Bit manipulation goes through the `bit_field` crate (version 0.10), whose
`get_bits`/`set_bits`/`get_bit` are modelled below; note that `set_bits`
*asserts* that the value fits in the target bit range ("value does not fit
into bit range") and panics otherwise, so it is modelled as an `Option`.
Fallible Rust control flow (panics such as failed `bit_field` assertions,
`panic!` on reserved BAR types, and overflowing shifts) is modelled with the
`RRes` result type.
-/

namespace PciTypes

/-- Rust evaluation outcome: a normal value, or a panic. -/
inductive RRes (α : Type) where
  | ok : α → RRes α
  | panicked : RRes α
deriving DecidableEq

/-- `bit_field`: `x.get_bits(lo..hi)` — the bits `lo` (inclusive) to `hi`
(exclusive) of `x`, shifted down to the bottom. -/
def getBits (x lo hi : Nat) : Nat := (x >>> lo) % 2 ^ (hi - lo)

/-- `bit_field`: `x.get_bit(i)`. -/
def getBit (x i : Nat) : Bool := x.testBit i

/-- `bit_field`: `x.set_bits(lo..hi, v)`.  The crate asserts
`value does not fit into bit range` when `v` needs more than `hi - lo` bits,
so the result is `none` (a panic) in that case.  On success the bits `lo..hi`
of `x` are replaced by `v`; the mask-and-or of the Rust source is written
here in the equivalent arithmetic form over disjoint bit ranges. -/
def setBits? (x lo hi v : Nat) : Option Nat :=
  if v < 2 ^ (hi - lo) then some (x % 2 ^ lo + v * 2 ^ lo + (x >>> hi) * 2 ^ hi) else none

/-- The `PciAddress` packed key: `struct PciAddress(u32)`. -/
structure PciAddress where
  val : Nat
deriving DecidableEq

/-- `PciAddress::new(segment, bus, device, function)`: four `set_bits` calls on
a zero-initialised `u32`.  Each `set_bits` call can panic when its argument
does not fit the range (3/5/8/16 bits), hence the `Option` result. -/
def PciAddress.new (segment bus device function : Nat) : Option PciAddress :=
  (setBits? 0 0 3 function).bind fun r1 =>
  (setBits? r1 3 8 device).bind fun r2 =>
  (setBits? r2 8 16 bus).bind fun r3 =>
  (setBits? r3 16 32 segment).map fun r4 => ⟨r4⟩

/-- `PciAddress::segment`. -/
def PciAddress.segment (a : PciAddress) : Nat := getBits a.val 16 32

/-- `PciAddress::bus`. -/
def PciAddress.bus (a : PciAddress) : Nat := getBits a.val 8 16

/-- `PciAddress::device`. -/
def PciAddress.device (a : PciAddress) : Nat := getBits a.val 3 8

/-- `PciAddress::function`. -/
def PciAddress.function (a : PciAddress) : Nat := getBits a.val 0 3

/-! ## Display formatting

`impl fmt::Display for PciAddress` writes
`"{:02x}-{:02x}:{:02x}.{}"` over `(segment, bus, device, function)`.
`{:02x}` is Rust lower-hex formatting zero-padded on the left to a minimum
width of two characters; `{}` on an integer is plain decimal. -/

/-- One lower-case hexadecimal digit character (for `n < 16`). -/
def hexDigitChar (n : Nat) : Char :=
  if n < 10 then Char.ofNat (48 + n) else Char.ofNat (87 + n)

/-- The hexadecimal digits of `n`, least significant first, as produced by
Rust formatting's divide-by-16 loop (a do-while loop: at least one digit).
The loop runs at most once per four bits of the input, so it is given
explicit fuel; 32 iterations cover every Rust integer width up to `u128`. -/
def hexDigitsRevAux : Nat → Nat → List Char
  | 0, _ => []
  | fuel + 1, n =>
    if n < 16 then [hexDigitChar (n % 16)]
    else hexDigitChar (n % 16) :: hexDigitsRevAux fuel (n / 16)

/-- Rust `{:x}`: the hex digits, most significant first. -/
def rustLowerHex (n : Nat) : String := String.mk (hexDigitsRevAux 32 n).reverse

/-- Rust zero-fill padding of a formatted integer to a minimum width. -/
def rustPadZero (width : Nat) (s : String) : String :=
  String.mk (List.replicate (width - s.data.length) (Char.ofNat 48) ++ s.data)

/-- Rust `{:0Wx}` — lower hex, zero-padded to minimum width `W`. -/
def rustFmt0x (width n : Nat) : String := rustPadZero width (rustLowerHex n)

/-- `impl fmt::Display for PciAddress`, from the source format string
`"{:02x}-{:02x}:{:02x}.{}"`. -/
def PciAddress.display (a : PciAddress) : String :=
  rustFmt0x 2 a.segment ++ "-" ++ rustFmt0x 2 a.bus ++ ":" ++ rustFmt0x 2 a.device
    ++ "." ++ Nat.repr a.function

/-- The format the specification claims for `Display`:
`"%04x-%02x:%02x.%d"`, i.e. the segment zero-padded to four hex digits. -/
def specDisplayFmt4 (a : PciAddress) : String :=
  rustFmt0x 4 a.segment ++ "-" ++ rustFmt0x 2 a.bus ++ ":" ++ rustFmt0x 2 a.device
    ++ "." ++ Nat.repr a.function

/-- An independent positional characterisation of two-digit-minimum lower-hex
formatting, for `n < 2 ^ 16`: digits are extracted by place-value division,
with exactly two output digits below `0x100`, three below `0x1000`, four
otherwise. -/
def specHexPad2 (n : Nat) : String :=
  if n < 256 then
    String.mk [hexDigitChar (n / 16), hexDigitChar (n % 16)]
  else if n < 4096 then
    String.mk [hexDigitChar (n / 256), hexDigitChar (n / 16 % 16), hexDigitChar (n % 16)]
  else
    String.mk [hexDigitChar (n / 4096), hexDigitChar (n / 256 % 16),
      hexDigitChar (n / 16 % 16), hexDigitChar (n % 16)]

/-! ## The register-access boundary

`trait ConfigRegionAccess { unsafe fn read(&self, address, offset) -> u32;
unsafe fn write(&self, address, offset, value); }` is modelled as a record of
a read function and a write function over an explicit device-state type `σ`:
reads are pure and writes produce the next state. -/

structure Device (σ : Type) where
  read : σ → PciAddress → Nat → Nat
  write : σ → PciAddress → Nat → Nat → σ

/-- A raw configuration space: one `u32` per byte offset, writes simply
store the written word. -/
def Cfg : Type := Nat → Nat

/-- The `ConfigRegionAccess` implementation of a raw configuration space. -/
def cfgDevice : Device Cfg where
  read s _ offset := s offset
  write s _ offset v := fun o => if o = offset then v else s o

/-! ## Register views (`src/register.rs`) -/

/-- `StatusRegister(u16)`. -/
structure StatusRegister where
  val : Nat
deriving DecidableEq

/-- `StatusRegister::has_capability_list`: bit 4. -/
def StatusRegister.has_capability_list (r : StatusRegister) : Bool := getBit r.val 4

/-! ## Headers (`src/lib.rs`) -/

/-- `struct PciHeader(PciAddress)`. -/
structure PciHeader where
  addr : PciAddress
deriving DecidableEq

/-- `PciHeader::status`: the high half of the word at `0x04`. -/
def PciHeader.status {σ : Type} (D : Device σ) (h : PciHeader) (s : σ) : StatusRegister :=
  ⟨getBits (D.read s h.addr 0x4) 16 32⟩

/-- `struct EndpointHeader(PciAddress)`. -/
structure EndpointHeader where
  addr : PciAddress
deriving DecidableEq

/-- `EndpointHeader::header`. -/
def EndpointHeader.header (h : EndpointHeader) : PciHeader := ⟨h.addr⟩

/-- `EndpointHeader::status`. -/
def EndpointHeader.status {σ : Type} (D : Device σ) (h : EndpointHeader) (s : σ) :
    StatusRegister :=
  PciHeader.status D h.header s

/-- `EndpointHeader::capability_pointer`: the low byte of the word at `0x34`,
but only when the status register advertises a capability list; `0`
otherwise. -/
def EndpointHeader.capability_pointer {σ : Type} (D : Device σ) (h : EndpointHeader)
    (s : σ) : Nat :=
  if (EndpointHeader.status D h s).has_capability_list then
    getBits (D.read s h.addr 0x34) 0 8
  else 0

/-! ## MSI capability (`src/capability/msi.rs`) -/

/-- `enum MultipleMessageSupport` with discriminants `0b000 ..= 0b101`. -/
inductive MultipleMessageSupport where
  | Int1
  | Int2
  | Int4
  | Int8
  | Int16
  | Int32
deriving DecidableEq

/-- The numeric discriminant (`as u32`) of a `MultipleMessageSupport`. -/
def MultipleMessageSupport.toBits : MultipleMessageSupport → Nat
  | .Int1 => 0
  | .Int2 => 1
  | .Int4 => 2
  | .Int8 => 3
  | .Int16 => 4
  | .Int32 => 5

/-- `TryFrom<u8> for MultipleMessageSupport`. -/
def MultipleMessageSupport.tryFrom (v : Nat) : Option MultipleMessageSupport :=
  match v with
  | 0 => some .Int1
  | 1 => some .Int2
  | 2 => some .Int4
  | 3 => some .Int8
  | 4 => some .Int16
  | 5 => some .Int32
  | _ => none

/-- `Ord::min` for the derived discriminant order:
`if other < self { other } else { self }`. -/
def MultipleMessageSupport.min (a b : MultipleMessageSupport) : MultipleMessageSupport :=
  if b.toBits < a.toBits then b else a

/-- `struct PciCapabilityAddress { address, offset }`. -/
structure PciCapabilityAddress where
  address : PciAddress
  offset : Nat
deriving DecidableEq

/-- `struct MsiCapability`: the capability-static fields decoded once from the
control word at construction, plus the capability address. -/
structure MsiCapability where
  address : PciCapabilityAddress
  per_vector_masking : Bool
  is_64bit : Bool
  multiple_message_capable : MultipleMessageSupport
deriving DecidableEq

/-- `MsiCapability::new(address, control)`: per-vector masking from bit 8,
64-bit support from bit 7, message-capable count from bits 1..4 with an
out-of-range readback falling back to `Int1`. -/
def MsiCapability.new (address : PciCapabilityAddress) (control : Nat) : MsiCapability where
  address := address
  per_vector_masking := getBit control 8
  is_64bit := getBit control 7
  multiple_message_capable := (MultipleMessageSupport.tryFrom (getBits control 1 4)).getD .Int1

/-- `MsiCapability::set_multiple_message_enable`: read-modify-write of the
control word, storing `min(data, multiple_message_capable)` into bits 4..7.
The `set_bits` call goes through the `bit_field` assertion. -/
def MsiCapability.set_multiple_message_enable {σ : Type} (D : Device σ) (c : MsiCapability)
    (data : MultipleMessageSupport) (s : σ) : RRes σ :=
  let reg := D.read s c.address.address c.address.offset
  match setBits? reg 4 7 (data.min c.multiple_message_capable).toBits with
  | some reg2 => .ok (D.write s c.address.address c.address.offset reg2)
  | none => .panicked

/-- `MsiCapability::message_mask`: reads the mask register at `+0x10` only
when both 64-bit addressing and per-vector masking are supported, else `0`. -/
def MsiCapability.message_mask {σ : Type} (D : Device σ) (c : MsiCapability) (s : σ) : Nat :=
  if c.is_64bit && c.per_vector_masking then
    D.read s c.address.address (c.address.offset + 0x10)
  else 0

/-- `MsiCapability::set_message_mask`: writes the mask register at `+0x10`
only when both 64-bit addressing and per-vector masking are supported. -/
def MsiCapability.set_message_mask {σ : Type} (D : Device σ) (c : MsiCapability)
    (mask : Nat) (s : σ) : σ :=
  if c.is_64bit && c.per_vector_masking then
    D.write s c.address.address (c.address.offset + 0x10) mask
  else s

/-- `MsiCapability::is_pending`: reads the pending register at `+0x14` when
the device supports 64-bit addressing, else `0`. -/
def MsiCapability.is_pending {σ : Type} (D : Device σ) (c : MsiCapability) (s : σ) : Nat :=
  if c.is_64bit then D.read s c.address.address (c.address.offset + 0x14) else 0

/-! ## MSI-X capability (`src/capability/msix.rs`) -/

/-- `struct MsixCapability`. -/
structure MsixCapability where
  address : PciCapabilityAddress
  table_size : Nat
  table : Nat
  pba : Nat
deriving DecidableEq

/-- `MsixCapability::new(address, control, access)`: the table size is
bits 0..11 of the control word plus one; the table and pending-bit-array
words are read once from `+0x04` and `+0x08`. -/
def MsixCapability.new {σ : Type} (D : Device σ) (address : PciCapabilityAddress)
    (control : Nat) (s : σ) : MsixCapability where
  address := address
  table_size := getBits control 0 11 + 1
  table := D.read s address.address (address.offset + 0x04)
  pba := D.read s address.address (address.offset + 0x08)

/-! ## Capability chain (`src/capability/mod.rs`) -/

/-- `enum PciCapability`. -/
inductive PciCapability where
  | PowerManagement : PciCapabilityAddress → PciCapability
  | AcceleratedGraphicsPort : PciCapabilityAddress → PciCapability
  | VitalProductData : PciCapabilityAddress → PciCapability
  | SlotIdentification : PciCapabilityAddress → PciCapability
  | Msi : MsiCapability → PciCapability
  | CompactPCIHotswap : PciCapabilityAddress → PciCapability
  | PciX : PciCapabilityAddress → PciCapability
  | HyperTransport : PciCapabilityAddress → PciCapability
  | Vendor : PciCapabilityAddress → PciCapability
  | DebugPort : PciCapabilityAddress → PciCapability
  | CompactPCICentralResourceControl : PciCapabilityAddress → PciCapability
  | PciHotPlugControl : PciCapabilityAddress → PciCapability
  | BridgeSubsystemVendorId : PciCapabilityAddress → PciCapability
  | AGP3 : PciCapabilityAddress → PciCapability
  | PciExpress : PciCapabilityAddress → PciCapability
  | MsiX : MsixCapability → PciCapability
  | Unknown : PciCapabilityAddress → Nat → PciCapability
deriving DecidableEq

/-- `PciCapability::parse(id, address, extension, access)`: the null
capability (id 0) parses to nothing; recognised one-byte ids produce their
variant (MSI and MSI-X decode their sub-structure); anything else is kept as
`Unknown { address, id }`. -/
def PciCapability.parse {σ : Type} (D : Device σ) (id : Nat)
    (address : PciCapabilityAddress) (extension : Nat) (s : σ) : Option PciCapability :=
  match id with
  | 0x00 => none
  | 0x01 => some (.PowerManagement address)
  | 0x02 => some (.AcceleratedGraphicsPort address)
  | 0x03 => some (.VitalProductData address)
  | 0x04 => some (.SlotIdentification address)
  | 0x05 => some (.Msi (MsiCapability.new address extension))
  | 0x06 => some (.CompactPCIHotswap address)
  | 0x07 => some (.PciX address)
  | 0x08 => some (.HyperTransport address)
  | 0x09 => some (.Vendor address)
  | 0x0A => some (.DebugPort address)
  | 0x0B => some (.CompactPCICentralResourceControl address)
  | 0x0C => some (.PciHotPlugControl address)
  | 0x0D => some (.BridgeSubsystemVendorId address)
  | 0x0E => some (.AGP3 address)
  | 0x10 => some (.PciExpress address)
  | 0x11 => some (.MsiX (MsixCapability.new D address extension s))
  | _ => some (.Unknown address id)

/-- The capability ids with a dedicated arm in `PciCapability::parse`
(including the null capability `0x00`). -/
def handledCapIds : List Nat :=
  [0x00, 0x01, 0x02, 0x03, 0x04, 0x05, 0x06, 0x07, 0x08, 0x09, 0x0A, 0x0B, 0x0C,
    0x0D, 0x0E, 0x10, 0x11]

/-- The state of a `CapabilityIterator` (the access capability is passed
separately as `D`/`s`; the iterator's reads never change the device state). -/
structure CapabilityIterator where
  address : PciAddress
  offset : Nat
deriving DecidableEq

/-- `CapabilityIterator::next`: loop until the offset is `0` (exhausted,
inner `none`) or a capability parses (inner `some cap`); the offset is
advanced to the next pointer before the parse result is inspected, so a null
capability is skipped.  The `loop` can run forever on a cyclic chain, so it
is given explicit fuel: an outer `none` means the fuel ran out. -/
def CapabilityIterator.next {σ : Type} (D : Device σ) (s : σ) :
    Nat → CapabilityIterator → Option (Option PciCapability × CapabilityIterator)
  | 0, _ => none
  | fuel + 1, it =>
    if it.offset = 0 then some (none, it)
    else
      let data := D.read s it.address it.offset
      let next_ptr := getBits data 8 16
      let id := getBits data 0 8
      let extension := getBits data 16 32
      let cap := PciCapability.parse D id ⟨it.address, it.offset⟩ extension s
      let it2 : CapabilityIterator := { it with offset := next_ptr }
      match cap with
      | some cap => some (some cap, it2)
      | none => CapabilityIterator.next D s fuel it2

/-- `EndpointHeader::capabilities`: an iterator rooted at the header's
capability pointer. -/
def EndpointHeader.capabilities {σ : Type} (D : Device σ) (h : EndpointHeader)
    (s : σ) : CapabilityIterator :=
  ⟨h.addr, EndpointHeader.capability_pointer D h s⟩

/-! ## BAR decoding and sizing (`EndpointHeader::bar`) -/

/-- `enum Bar`. -/
inductive Bar where
  | Memory32 : Nat → Nat → Bool → Bar
  | Memory64 : Nat → Nat → Bool → Bar
  | Io : Nat → Bar
deriving DecidableEq

/-- `u32::trailing_zeros` (32 for an all-zero word), via the fuelled halving
loop; inputs are `u32` values, i.e. below `2 ^ 32`. -/
def tzAux : Nat → Nat → Nat
  | 0, _ => 0
  | fuel + 1, n => if n % 2 = 1 then 0 else tzAux fuel (n / 2) + 1

/-- `u32::trailing_zeros`. -/
def trailingZerosU32 (n : Nat) : Nat := if n = 0 then 32 else tzAux 32 n

/-- Rust `a << s` on `u32`: a shift amount of 32 or more is an arithmetic
overflow, a panic under overflow checking; otherwise the value wraps into
32 bits. -/
def shlU32 (a s : Nat) : RRes Nat :=
  if s < 32 then .ok ((a <<< s) % 2 ^ 32) else .panicked

/-- Rust `1u64 << s`: a shift amount of 64 or more is an arithmetic
overflow (panic); otherwise the value wraps into 64 bits. -/
def shlU64 (a s : Nat) : RRes Nat :=
  if s < 64 then .ok ((a <<< s) % 2 ^ 64) else .panicked

/-- Rust `(1 << s) as u64` where the `1` is an unsuffixed literal and hence
an `i32`: for `s = 31` the `i32` result is the (negative) minimum value,
which sign-extends when cast to `u64`; `s ≥ 32` is a shift overflow. -/
def oneI32ShlAsU64 (s : Nat) : RRes Nat :=
  if s < 31 then .ok (2 ^ s)
  else if s = 31 then .ok (2 ^ 64 - 2 ^ 31)
  else .panicked

/-- `EndpointHeader::bar(slot, access)`.  Returns the decode outcome (with
`RRes` capturing the `panic!` on a reserved memory type, failed `bit_field`
assertions and overflowing shifts) together with the final device state:
the sizing probes write all-ones, read back the mask and restore the saved
words before the outcome is computed, so the state component is final even
for a panic. -/
def EndpointHeader.bar {σ : Type} (D : Device σ) (hdr : EndpointHeader) (slot : Nat)
    (s : σ) : RRes (Option Bar) × σ :=
  if 6 ≤ slot then (.ok none, s)
  else
    let offset := 0x10 + slot * 4
    let bar := D.read s hdr.addr offset
    if ¬ getBit bar 0 then
      let prefetchable := getBit bar 3
      let address := getBits bar 4 32 <<< 4
      match getBits bar 1 3 with
      | 0 =>
        -- 0b00: 32-bit memory BAR
        let s := D.write s hdr.addr offset 0xfffffff0
        let readback := D.read s hdr.addr offset
        let s := D.write s hdr.addr offset address
        if readback = 0 then (.ok none, s)
        else
          match setBits? readback 0 4 0 with
          | none => (.panicked, s)
          | some readback =>
            match shlU32 1 (trailingZerosU32 readback) with
            | .ok size => (.ok (some (Bar.Memory32 address size prefetchable)), s)
            | .panicked => (.panicked, s)
      | 2 =>
        -- 0b10: 64-bit memory BAR
        if 5 ≤ slot then (.ok none, s)
        else
          let address_upper := D.read s hdr.addr (offset + 4)
          let s := D.write s hdr.addr offset 0xfffffff0
          let s := D.write s hdr.addr (offset + 4) 0xffffffff
          let readback_low := D.read s hdr.addr offset
          let readback_high := D.read s hdr.addr (offset + 4)
          let s := D.write s hdr.addr offset address
          let s := D.write s hdr.addr (offset + 4) address_upper
          match setBits? readback_low 0 4 0 with
          | none => (.panicked, s)
          | some readback_low =>
            let sizeR :=
              if readback_low ≠ 0 then oneI32ShlAsU64 (trailingZerosU32 readback_low)
              else shlU64 1 (trailingZerosU32 readback_high + 32)
            match sizeR with
            | .panicked => (.panicked, s)
            | .ok size =>
              match setBits? address 32 64 address_upper with
              | none => (.panicked, s)
              | some address64 =>
                (.ok (some (Bar.Memory64 address64 size prefetchable)), s)
      | _ => (.panicked, s)
    else
      (.ok (some (Bar.Io (getBits bar 2 32 <<< 2))), s)

/-! ## A simulated BAR register

For the sizing-probe claims the access capability is instantiated with a
simulated BAR register bank that behaves like the hardware the probe is
designed for: each 32-bit register has a fixed set of writable address bits
(`implMask`), a stored address value, and read-only low bits (`flags`: the
memory/IO bit, the type bits and the prefetchable bit).  A write latches
only the writable bits; a read returns the stored writable bits together
with the read-only flags. -/

structure SimBar where
  implMask : Nat
  stored : Nat
  flags : Nat
deriving DecidableEq

/-- Reading a simulated BAR register. -/
def SimBar.readReg (r : SimBar) : Nat := (r.stored &&& r.implMask) ||| r.flags

/-- Writing a simulated BAR register: only the writable bits latch. -/
def SimBar.writeReg (r : SimBar) (v : Nat) : SimBar := { r with stored := v &&& r.implMask }

/-- A bank of simulated BAR registers, one per byte offset. -/
def SimDev : Type := Nat → SimBar

/-- The `ConfigRegionAccess` implementation of the simulated register bank. -/
def simDevice : Device SimDev where
  read s _ offset := (s offset).readReg
  write s _ offset v := fun o => if o = offset then (s o).writeReg v else s o

/-- Well-formedness of one simulated BAR register: the stored value lies in
the writable bits, the read-only flags are disjoint from the writable bits,
the low four bits (type/prefetch flags) are never writable, and both masks
fit in 32 bits. -/
structure SimBar.Wf (r : SimBar) : Prop where
  stored_sub : r.stored &&& r.implMask = r.stored
  flags_disj : r.flags &&& r.implMask = 0
  mask_low : r.implMask % 16 = 0
  mask_lt : r.implMask < 2 ^ 32
  flags_lt : r.flags < 2 ^ 32

/-- Well-formedness of the whole simulated register bank. -/
def SimDev.Wf (s : SimDev) : Prop := ∀ offset, (s offset).Wf

/-! ## Helper lemmas -/

theorem setBits?_of_lt {x lo hi v : Nat} (h : v < 2 ^ (hi - lo)) :
    setBits? x lo hi v = some (x % 2 ^ lo + v * 2 ^ lo + (x >>> hi) * 2 ^ hi) :=
  if_pos h

theorem setBits?_of_ge {x lo hi v : Nat} (h : 2 ^ (hi - lo) ≤ v) :
    setBits? x lo hi v = none :=
  if_neg (Nat.not_lt.mpr h)

theorem getBits_lt (x lo hi : Nat) : getBits x lo hi < 2 ^ (hi - lo) :=
  Nat.mod_lt _ (Nat.pos_pow_of_pos _ (by omega))

/-- The packed word produced by a successful `PciAddress::new`. -/
theorem PciAddress.new_eq {segment bus device function : Nat}
    (hs : segment < 2 ^ 16) (hb : bus < 2 ^ 8) (hd : device < 2 ^ 5)
    (hf : function < 2 ^ 3) :
    PciAddress.new segment bus device function =
      some ⟨function + 8 * device + 256 * bus + 65536 * segment⟩ := by
  have h1 : function < 2 ^ (3 - 0) := by simpa using hf
  have h2 : device < 2 ^ (8 - 3) := by simpa using hd
  have h3 : bus < 2 ^ (16 - 8) := by simpa using hb
  have h4 : segment < 2 ^ (32 - 16) := by simpa using hs
  simp only [PciAddress.new, setBits?, if_pos h1, if_pos h2, if_pos h3, if_pos h4,
    Option.some_bind, Option.map_some, Option.some.injEq, PciAddress.mk.injEq,
    Nat.shiftRight_eq_div_pow]
  norm_num
  omega

/-! ## C3 — `PciAddress::new` on out-of-range fields -/

/-- C3 counterexample: the claim says `PciAddress::new` totally succeeds and
silently truncates out-of-range fields; but `new(0, 0, 0, 8)` hits the
`bit_field` `set_bits` assertion (`function` needs 4 bits, the range has 3)
and panics instead of succeeding. -/
theorem pciAddress_new_panics_on_function_8 : PciAddress.new 0 0 0 8 = none := by decide

/-- C3 (amended): `PciAddress::new(segment, bus, device, function)` (with
`u16`/`u8`/`u8`/`u8` arguments) succeeds exactly when `device < 32` and
`function < 8`, packing function into bits 0..3, device into bits 3..8, bus
into bits 8..16 and segment into bits 16..32 of the key; when `device ≥ 32`
or `function ≥ 8` it panics on the `bit_field` range assertion rather than
truncating. -/
theorem pciAddress_new_range_checked (segment bus device function : Nat)
    (hs : segment < 2 ^ 16) (hb : bus < 2 ^ 8) (hd : device < 2 ^ 8)
    (hf : function < 2 ^ 8) :
    (function < 8 → device < 32 →
      PciAddress.new segment bus device function =
        some ⟨function + 8 * device + 256 * bus + 65536 * segment⟩)
    ∧ (8 ≤ function ∨ 32 ≤ device →
      PciAddress.new segment bus device function = none) := by
  constructor
  · intro hf8 hd32
    exact PciAddress.new_eq hs hb hd32 hf8
  · intro h
    by_cases hf8 : function < 8
    · have hd32 : 32 ≤ device := by omega
      rw [PciAddress.new, setBits?_of_lt (v := function) (by simpa using hf8),
        Option.some_bind, setBits?_of_ge (by simpa using hd32)]
      rfl
    · rw [PciAddress.new, setBits?_of_ge (by simp; omega)]
      rfl

/-- C3 witness. -/
theorem pciAddress_new_range_checked_witness :
    PciAddress.new 1 2 3 4 = some ⟨66076⟩ ∧ PciAddress.new 0 0 32 0 = none :=
  ⟨(pciAddress_new_range_checked 1 2 3 4 (by decide) (by decide) (by decide)
      (by decide)).1 (by decide) (by decide),
    (pciAddress_new_range_checked 0 0 32 0 (by decide) (by decide) (by decide)
      (by decide)).2 (Or.inr (by decide))⟩

/-! ## C7 — address round-trip -/

/-- C7: for valid inputs (`device < 32`, `function < 8`), the four accessors
applied to `PciAddress::new(segment, bus, device, function)` recover exactly
the original field values. -/
theorem pciAddress_roundtrip (segment bus device function : Nat)
    (hs : segment < 2 ^ 16) (hb : bus < 2 ^ 8) (hd : device < 32)
    (hf : function < 8) :
    ∃ a, PciAddress.new segment bus device function = some a ∧
      a.segment = segment ∧ a.bus = bus ∧ a.device = device ∧
      a.function = function := by
  refine ⟨_, PciAddress.new_eq hs hb (by simpa using hd) (by simpa using hf),
    ?_, ?_, ?_, ?_⟩ <;>
    simp only [PciAddress.segment, PciAddress.bus, PciAddress.device,
      PciAddress.function, getBits, Nat.shiftRight_eq_div_pow] <;>
    norm_num <;> omega

/-- C7 witness. -/
theorem pciAddress_roundtrip_witness :
    ∃ a, PciAddress.new 43981 18 31 7 = some a ∧
      a.segment = 43981 ∧ a.bus = 18 ∧ a.device = 31 ∧ a.function = 7 :=
  pciAddress_roundtrip 43981 18 31 7 (by decide) (by decide) (by decide) (by decide)

/-! ## C9 — `Display` formatting -/

theorem hexAux_step (fuel n : Nat) :
    hexDigitsRevAux (fuel + 1) n =
      if n < 16 then [hexDigitChar (n % 16)]
      else hexDigitChar (n % 16) :: hexDigitsRevAux fuel (n / 16) := rfl

/-- Rust `{:02x}` agrees with the positional characterisation for `u16`
values. -/
theorem rustFmt0x_two_eq_specHexPad2 (m : Nat) (hm : m < 65536) :
    rustFmt0x 2 m = specHexPad2 m := by
  rcases Nat.lt_or_ge m 16 with h1 | h1
  · rw [rustFmt0x, rustLowerHex, show (32 : Nat) = 31 + 1 from rfl, hexAux_step,
      if_pos h1, specHexPad2, if_pos (by omega), Nat.div_eq_of_lt h1,
      Nat.mod_eq_of_lt h1]
    rfl
  rcases Nat.lt_or_ge m 256 with h2 | h2
  · rw [rustFmt0x, rustLowerHex, show (32 : Nat) = 31 + 1 from rfl, hexAux_step,
      if_neg (by omega), show (31 : Nat) = 30 + 1 from rfl, hexAux_step,
      if_pos (by omega), specHexPad2, if_pos h2,
      Nat.mod_eq_of_lt (a := m / 16) (by omega)]
    rfl
  rcases Nat.lt_or_ge m 4096 with h3 | h3
  · rw [rustFmt0x, rustLowerHex, show (32 : Nat) = 31 + 1 from rfl, hexAux_step,
      if_neg (by omega), show (31 : Nat) = 30 + 1 from rfl, hexAux_step,
      if_neg (by omega), show (30 : Nat) = 29 + 1 from rfl, hexAux_step,
      if_pos (by omega), Nat.div_div_eq_div_mul,
      show (16 * 16 : Nat) = 256 from rfl,
      Nat.mod_eq_of_lt (a := m / 256) (by omega), specHexPad2,
      if_neg (by omega), if_pos h3]
    rfl
  · rw [rustFmt0x, rustLowerHex, show (32 : Nat) = 31 + 1 from rfl, hexAux_step,
      if_neg (by omega), show (31 : Nat) = 30 + 1 from rfl, hexAux_step,
      if_neg (by omega), show (30 : Nat) = 29 + 1 from rfl, hexAux_step,
      Nat.div_div_eq_div_mul, show (16 * 16 : Nat) = 256 from rfl,
      if_neg (by omega), show (29 : Nat) = 28 + 1 from rfl, hexAux_step,
      Nat.div_div_eq_div_mul, show (256 * 16 : Nat) = 4096 from rfl,
      if_pos (by omega), Nat.mod_eq_of_lt (a := m / 4096) (by omega),
      specHexPad2, if_neg (by omega), if_neg (by omega)]
    rfl

/-- C9 counterexample: the claim says the segment renders as four hex
digits (`%04x`); on the all-zero address the code renders `"00-00:00.0"`,
not the `"0000-00:00.0"` that the claimed format would produce. -/
theorem display_segment_not_four_digits :
    PciAddress.display ⟨0⟩ = "00-00:00.0" ∧
      PciAddress.display ⟨0⟩ ≠ specDisplayFmt4 ⟨0⟩ := by
  constructor <;> decide

/-- C9 (amended): `Display` renders `segment-bus:device.function` with
segment, bus and device each as two-or-more lowercase hex digits zero-padded
to a minimum of two (format `"%02x-%02x:%02x.%d"` — the segment's pad width
is 2, not 4), and the function in decimal. -/
theorem display_two_digit_hex_format (a : PciAddress) :
    PciAddress.display a =
      specHexPad2 a.segment ++ "-" ++ specHexPad2 a.bus ++ ":" ++
        specHexPad2 a.device ++ "." ++ Nat.repr a.function := by
  rw [PciAddress.display,
    rustFmt0x_two_eq_specHexPad2 a.segment
      (by simpa using getBits_lt a.val 16 32),
    rustFmt0x_two_eq_specHexPad2 a.bus
      (by have := getBits_lt a.val 8 16; simp only [PciAddress.bus]; omega),
    rustFmt0x_two_eq_specHexPad2 a.device
      (by have := getBits_lt a.val 3 8; simp only [PciAddress.device]; omega)]

/-! ## C6 — MSI multiple-message-enable clamping -/

theorem MultipleMessageSupport.toBits_lt (m : MultipleMessageSupport) : m.toBits < 8 := by
  cases m <;> decide

theorem MultipleMessageSupport.toBits_inj {a b : MultipleMessageSupport}
    (h : a.toBits = b.toBits) : a = b := by
  cases a <;> cases b <;> simp_all [MultipleMessageSupport.toBits]

/-- Bits 4..7 of a word freshly assembled by `set_bits(4..7, v)`. -/
theorem getBits_mid (x v : Nat) (hv : v < 8) :
    getBits (x % 2 ^ 4 + v * 2 ^ 4 + (x >>> 7) * 2 ^ 7) 4 7 = v := by
  have h16 : x % 2 ^ 4 < 16 := by
    have := Nat.mod_lt x (y := 2 ^ 4) (by omega); omega
  rw [getBits]
  simp only [Nat.shiftRight_eq_div_pow]
  generalize x % 2 ^ 4 = lowbits at h16
  generalize x / 2 ^ 7 = hibits
  norm_num
  omega

/-- C6: `set_multiple_message_enable` never panics and stores
`min(requested, multiple_message_capable)` into bits 4..6 of the control
word; when the request exceeds the capability-reported maximum, the maximum
is written and the requested value is not. -/
theorem msi_multiple_message_enable_clamps (s : Cfg) (c : MsiCapability)
    (data : MultipleMessageSupport) :
    ∃ s2, MsiCapability.set_multiple_message_enable cfgDevice c data s = .ok s2 ∧
      getBits (s2 c.address.offset) 4 7 =
        (data.min c.multiple_message_capable).toBits ∧
      (c.multiple_message_capable.toBits < data.toBits →
        getBits (s2 c.address.offset) 4 7 = c.multiple_message_capable.toBits ∧
        getBits (s2 c.address.offset) 4 7 ≠ data.toBits) := by
  have hv : (data.min c.multiple_message_capable).toBits < 8 :=
    MultipleMessageSupport.toBits_lt _
  refine ⟨fun o => if o = c.address.offset then
      s c.address.offset % 2 ^ 4 +
        (data.min c.multiple_message_capable).toBits * 2 ^ 4 +
        (s c.address.offset >>> 7) * 2 ^ 7
    else s o, ?_, ?_, ?_⟩
  · rw [MsiCapability.set_multiple_message_enable,
      setBits?_of_lt (by simpa using hv)]
    rfl
  · show getBits (if c.address.offset = c.address.offset then _ else _) 4 7 = _
    rw [if_pos rfl]
    exact getBits_mid _ _ hv
  · intro hlt
    have hmin : data.min c.multiple_message_capable = c.multiple_message_capable := by
      rw [MultipleMessageSupport.min, if_pos hlt]
    constructor
    · show getBits (if c.address.offset = c.address.offset then _ else _) 4 7 = _
      rw [if_pos rfl, getBits_mid _ _ hv, hmin]
    · show getBits (if c.address.offset = c.address.offset then _ else _) 4 7 ≠ _
      rw [if_pos rfl, getBits_mid _ _ hv, hmin]
      omega

/-- An MSI capability at offset `0x60` whose control word reported no
64-bit support, no per-vector masking, and one message. -/
def capW : MsiCapability := ⟨⟨⟨0⟩, 0x60⟩, false, false, .Int1⟩

/-- C6 witness. -/
theorem msi_multiple_message_enable_clamps_witness :
    ∃ s2, MsiCapability.set_multiple_message_enable cfgDevice capW .Int32
        (fun _ => 0) = .ok s2 ∧
      getBits (s2 capW.address.offset) 4 7 =
        (MultipleMessageSupport.min .Int32 capW.multiple_message_capable).toBits ∧
      (capW.multiple_message_capable.toBits < MultipleMessageSupport.toBits .Int32 →
        getBits (s2 capW.address.offset) 4 7 = capW.multiple_message_capable.toBits ∧
        getBits (s2 capW.address.offset) 4 7 ≠ MultipleMessageSupport.toBits .Int32) :=
  msi_multiple_message_enable_clamps (fun _ => 0) capW .Int32

/-! ## C5 — MSI mask/pending register gating -/

/-- An MSI capability at offset `0x60` with 64-bit addressing support but
without per-vector masking. -/
def cap64 : MsiCapability := ⟨⟨⟨0⟩, 0x60⟩, false, true, .Int1⟩

/-- A configuration space holding `0xdead` in the pending-bit register of
`cap64` (offset `0x60 + 0x14 = 0x74`). -/
def devP : Cfg := fun off => if off = 0x74 then 0xdead else 0

/-- C5 counterexample: the claim says the pending-bit register at `+0x14` is
accessed only when *both* 64-bit addressing and per-vector masking are
supported, and that `is_pending` returns `0` otherwise; but with 64-bit
support and *no* per-vector masking, `is_pending` reads the register and
returns its value. -/
theorem msi_is_pending_reads_without_pvm :
    cap64.per_vector_masking = false ∧
      MsiCapability.is_pending cfgDevice cap64 devP = 0xdead ∧ (0xdead : Nat) ≠ 0 := by
  refine ⟨rfl, ?_, by decide⟩
  decide

/-- C5 (amended): the mask register at `+0x10` is gated on both 64-bit
addressing and per-vector masking — otherwise `message_mask` returns `0`
and `set_message_mask` performs no write; the pending register at `+0x14`
is gated on 64-bit addressing alone — `is_pending` returns `0` only when
64-bit addressing is unsupported, and reads the register whenever it is
supported, regardless of per-vector masking. -/
theorem msi_mask_pending_gating {σ : Type} (D : Device σ) (c : MsiCapability)
    (m : Nat) (s : σ) :
    ((c.is_64bit && c.per_vector_masking) = false →
      MsiCapability.message_mask D c s = 0 ∧
      MsiCapability.set_message_mask D c m s = s)
    ∧ ((c.is_64bit && c.per_vector_masking) = true →
      MsiCapability.message_mask D c s =
        D.read s c.address.address (c.address.offset + 0x10) ∧
      MsiCapability.set_message_mask D c m s =
        D.write s c.address.address (c.address.offset + 0x10) m)
    ∧ (c.is_64bit = false → MsiCapability.is_pending D c s = 0)
    ∧ (c.is_64bit = true →
      MsiCapability.is_pending D c s =
        D.read s c.address.address (c.address.offset + 0x14)) := by
  refine ⟨fun h => ?_, fun h => ?_, fun h => ?_, fun h => ?_⟩ <;>
    simp [MsiCapability.message_mask, MsiCapability.set_message_mask,
      MsiCapability.is_pending, h]

/-- C5 witness. -/
theorem msi_mask_pending_gating_witness :
    (MsiCapability.message_mask cfgDevice cap64 devP = 0 ∧
      MsiCapability.set_message_mask cfgDevice cap64 7 devP = devP)
    ∧ MsiCapability.is_pending cfgDevice cap64 devP =
        cfgDevice.read devP cap64.address.address (cap64.address.offset + 0x14) :=
  ⟨(msi_mask_pending_gating cfgDevice cap64 7 devP).1 (by decide),
    (msi_mask_pending_gating cfgDevice cap64 7 devP).2.2.2 (by decide)⟩

/-! ## C8 — 64-bit BAR at the last slot -/

/-- C8: whenever the raw register at slot 5 decodes as a 64-bit memory BAR
(bit 0 clear, bits 1..3 equal to `0b10`), `EndpointHeader::bar(5, _)`
returns `None` without panicking and without touching the device. -/
theorem bar_64bit_slot5_absent {σ : Type} (D : Device σ) (hdr : EndpointHeader)
    (s : σ) (h0 : getBit (D.read s hdr.addr 0x24) 0 = false)
    (h2 : getBits (D.read s hdr.addr 0x24) 1 3 = 2) :
    EndpointHeader.bar D hdr 5 s = (.ok none, s) := by
  have hoff : 0x10 + 5 * 4 = 0x24 := by norm_num
  rw [EndpointHeader.bar, if_neg (by omega)]
  simp only [hoff, h0, h2, Bool.false_eq_true, not_false_eq_true, if_pos]
  norm_num

/-- C8 witness: a device whose every register reads `0x4` (64-bit memory
type, not prefetchable). -/
theorem bar_64bit_slot5_absent_witness :
    EndpointHeader.bar cfgDevice ⟨⟨0⟩⟩ 5 (fun _ => 4) = (.ok none, fun _ => 4) :=
  bar_64bit_slot5_absent cfgDevice ⟨⟨0⟩⟩ (fun _ => 4) (by decide) (by decide)

/-! ## C10 — capability pointer gated on the status bit -/

theorem getBit_getBits (x lo hi i : Nat) (h : i < hi - lo) :
    getBit (getBits x lo hi) i = getBit x (lo + i) := by
  simp [getBit, getBits, Nat.testBit_mod_two_pow, h]

/-- C10: when bit 4 of the status register (bit 20 of the word at `0x04`)
is clear, `capability_pointer` returns `0` — regardless of the word stored
at `0x34` — and the capability iterator it seeds is immediately exhausted. -/
theorem capability_pointer_requires_status_bit (s : Cfg) (h : EndpointHeader)
    (hbit : getBit (s 0x4) 20 = false) :
    EndpointHeader.capability_pointer cfgDevice h s = 0
    ∧ (∀ v, EndpointHeader.capability_pointer cfgDevice h
        (fun o => if o = 0x34 then v else s o) = 0)
    ∧ (∀ fuel, CapabilityIterator.next cfgDevice s (fuel + 1)
        (EndpointHeader.capabilities cfgDevice h s) =
        some (none, EndpointHeader.capabilities cfgDevice h s)) := by
  have hstat : ∀ t : Cfg, t 0x4 = s 0x4 →
      (EndpointHeader.status cfgDevice h t).has_capability_list = false := by
    intro t ht
    rw [EndpointHeader.status, EndpointHeader.header, PciHeader.status,
      StatusRegister.has_capability_list]
    show getBit (getBits (t 0x4) 16 32) 4 = false
    rw [getBit_getBits _ _ _ _ (by omega), ht]
    exact hbit
  have hptr : EndpointHeader.capability_pointer cfgDevice h s = 0 := by
    rw [EndpointHeader.capability_pointer, hstat s rfl]
    simp
  refine ⟨hptr, fun v => ?_, fun fuel => ?_⟩
  · rw [EndpointHeader.capability_pointer, hstat _ (by norm_num)]
    simp
  · rw [CapabilityIterator.next]
    simp [EndpointHeader.capabilities, hptr]

/-- C10 witness: the all-zero configuration space. -/
theorem capability_pointer_requires_status_bit_witness :
    EndpointHeader.capability_pointer cfgDevice ⟨⟨0⟩⟩ (fun _ => 0) = 0
    ∧ EndpointHeader.capability_pointer cfgDevice ⟨⟨0⟩⟩
        (fun o => if o = 0x34 then 0x99 else (fun _ => 0 : Cfg) o) = 0
    ∧ CapabilityIterator.next cfgDevice (fun _ => 0) 1
        (EndpointHeader.capabilities cfgDevice ⟨⟨0⟩⟩ (fun _ => 0)) =
        some (none, EndpointHeader.capabilities cfgDevice ⟨⟨0⟩⟩ (fun _ => 0)) :=
  ⟨(capability_pointer_requires_status_bit (fun _ => 0) ⟨⟨0⟩⟩ (by decide)).1,
    (capability_pointer_requires_status_bit (fun _ => 0) ⟨⟨0⟩⟩ (by decide)).2.1 0x99,
    (capability_pointer_requires_status_bit (fun _ => 0) ⟨⟨0⟩⟩ (by decide)).2.2 0⟩

/-! ## C4 — capability chain walking -/

/-- `PciCapability::parse` maps every id without a dedicated match arm to
`Unknown { address, id }`. -/
theorem PciCapability.parse_unhandled {σ : Type} (D : Device σ) (id : Nat)
    (address : PciCapabilityAddress) (extension : Nat) (s : σ)
    (h : id ∉ handledCapIds) :
    PciCapability.parse D id address extension s = some (.Unknown address id) := by
  simp only [handledCapIds, List.mem_cons, List.not_mem_nil, or_false] at h
  push_neg at h
  unfold PciCapability.parse
  split <;> simp_all

/-- The simulated capability chain of the claim: the word at `0x34` holds
`(id 0x05, next 0x40)`, the word at `0x40` holds `(id 0x00, next 0x50)`,
the word at `0x50` holds `(id 0x11, next 0x00)` with MSI-X control
extension `3`; every other register reads zero. -/
def chainCfg : Cfg := fun off =>
  if off = 0x34 then 0x4005
  else if off = 0x40 then 0x5000
  else if off = 0x50 then 0x30011
  else 0

/-- C4: (1) the iterator reports exhaustion only at offset exactly `0`;
(2) an entry with id `0x00` yields nothing — the walk continues at its next
pointer; (3) an id without a dedicated arm still yields
`Unknown { address, id }`; (4) on the simulated chain
`[(0x05, 0x40), (0x00, 0x50), (0x11, 0x00)]` rooted at `0x34` the iterator
yields exactly the MSI capability, then the MSI-X capability, then reports
exhaustion — the null capability at `0x40` is skipped, not terminating. -/
theorem capability_chain_walk :
    (∀ {σ : Type} (D : Device σ) (s : σ) (fuel : Nat) (it out : CapabilityIterator),
      CapabilityIterator.next D s fuel it = some (none, out) → out.offset = 0)
    ∧ (∀ {σ : Type} (D : Device σ) (s : σ) (fuel : Nat) (it : CapabilityIterator),
      it.offset ≠ 0 → getBits (D.read s it.address it.offset) 0 8 = 0 →
      CapabilityIterator.next D s (fuel + 1) it =
        CapabilityIterator.next D s fuel
          { it with offset := getBits (D.read s it.address it.offset) 8 16 })
    ∧ (∀ {σ : Type} (D : Device σ) (s : σ) (fuel : Nat) (it : CapabilityIterator),
      it.offset ≠ 0 → getBits (D.read s it.address it.offset) 0 8 ∉ handledCapIds →
      CapabilityIterator.next D s (fuel + 1) it =
        some (some (.Unknown ⟨it.address, it.offset⟩
            (getBits (D.read s it.address it.offset) 0 8)),
          { it with offset := getBits (D.read s it.address it.offset) 8 16 }))
    ∧ (CapabilityIterator.next cfgDevice chainCfg 8 ⟨⟨0⟩, 0x34⟩ =
        some (some (.Msi ⟨⟨⟨0⟩, 0x34⟩, false, false, .Int1⟩), ⟨⟨0⟩, 0x40⟩)
      ∧ CapabilityIterator.next cfgDevice chainCfg 8 ⟨⟨0⟩, 0x40⟩ =
        some (some (.MsiX ⟨⟨⟨0⟩, 0x50⟩, 4, 0, 0⟩), ⟨⟨0⟩, 0⟩)
      ∧ CapabilityIterator.next cfgDevice chainCfg 8 ⟨⟨0⟩, 0⟩ =
        some (none, ⟨⟨0⟩, 0⟩)) := by
  refine ⟨?_, ?_, ?_, by decide, by decide, by decide⟩
  · intro σ D s fuel
    induction fuel with
    | zero => intro it out h; simp [CapabilityIterator.next] at h
    | succ n ih =>
      intro it out h
      rw [CapabilityIterator.next] at h
      by_cases h0 : it.offset = 0
      · rw [if_pos h0] at h
        simp only [Option.some.injEq, Prod.mk.injEq] at h
        rw [← h.2]
        exact h0
      · rw [if_neg h0] at h
        simp only at h
        rcases hp : PciCapability.parse D (getBits (D.read s it.address it.offset) 0 8)
            ⟨it.address, it.offset⟩ (getBits (D.read s it.address it.offset) 16 32) s
          with _ | c
        · rw [hp] at h
          exact ih _ _ h
        · rw [hp] at h
          simp at h
  · intro σ D s fuel it h0 hid
    rw [CapabilityIterator.next, if_neg h0]
    simp only [hid]
    rfl
  · intro σ D s fuel it h0 hid
    rw [CapabilityIterator.next, if_neg h0]
    simp only [PciCapability.parse_unhandled D _ _ _ _ hid]

/-- A configuration space whose every register reads `(id 0x42, next 0)`. -/
def unkCfg : Cfg := fun _ => 0x42

/-- C4 witness: the termination, null-skip and unknown-id parts applied at
concrete chains. -/
theorem capability_chain_walk_witness :
    ((⟨⟨0⟩, 0⟩ : CapabilityIterator).offset = 0
    ∧ CapabilityIterator.next cfgDevice chainCfg 8 ⟨⟨0⟩, 0x40⟩ =
        CapabilityIterator.next cfgDevice chainCfg 7 ⟨⟨0⟩, 0x50⟩)
    ∧ CapabilityIterator.next cfgDevice unkCfg 1 ⟨⟨0⟩, 0x40⟩ =
        some (some (.Unknown ⟨⟨0⟩, 0x40⟩ 0x42), ⟨⟨0⟩, 0⟩) :=
  ⟨⟨capability_chain_walk.1 cfgDevice chainCfg 8 ⟨⟨0⟩, 0⟩ ⟨⟨0⟩, 0⟩ (by decide),
    capability_chain_walk.2.1 cfgDevice chainCfg 7 ⟨⟨0⟩, 0x40⟩ (by decide) (by decide)⟩,
    capability_chain_walk.2.2.1 cfgDevice unkCfg 0 ⟨⟨0⟩, 0x40⟩ (by decide) (by decide)⟩

/-! ## C2 — unimplemented-BAR readback handling -/

/-- A simulated bank whose every register is an unimplemented (no writable
bits) 32-bit memory BAR with the prefetchable flag (bit 3) set, so the
probe readback is `0x8`: zero after masking the low control bits, but not
zero raw. -/
def devPf : SimDev := fun _ => ⟨0, 0, 8⟩

/-- C2 counterexample: the claim says a probe readback that is zero after
masking the low 4 bits yields `None`; on `devPf` the masked readback is
zero (`set_bits(0..4, 0)` of the readback is `0`) yet `bar` does not return
`None` — the raw readback `0x8` skips the zero test and the size
computation `1 << 32` panics. -/
theorem bar_masked_zero_readback_not_absent :
    simDevice.read (simDevice.write devPf ⟨0⟩ 0x10 0xfffffff0) ⟨0⟩ 0x10 = 8
    ∧ setBits? (simDevice.read (simDevice.write devPf ⟨0⟩ 0x10 0xfffffff0) ⟨0⟩ 0x10)
        0 4 0 = some 0
    ∧ (EndpointHeader.bar simDevice ⟨⟨0⟩⟩ 0 devPf).1 ≠ .ok none
    ∧ (EndpointHeader.bar simDevice ⟨⟨0⟩⟩ 0 devPf).1 = .panicked := by
  refine ⟨by decide, by decide, by decide, by decide⟩

/-- A simulated bank where slot 0 decodes as a 64-bit memory BAR
(type bits `0b10`) and both probe readbacks are zero. -/
def dev64zero : SimDev := fun off => if off = 0x10 then ⟨0, 0, 4⟩ else ⟨0, 0, 0⟩

/-- C2 (amended): in the 32-bit memory path the unimplemented-slot test is
against the *raw* readback, before masking: a raw readback of zero returns
`None`; a readback that is nonzero only in the low four control bits does
not return `None` (the overflowing shift `1 << 32` panics instead); and the
64-bit memory path performs no unimplemented-slot test at all — with both
probe readbacks zero it panics on `1u64 << 64` rather than returning
`None`. -/
theorem bar_unimplemented_raw_zero_readback :
    (∀ (s : SimDev) (hdr : EndpointHeader) (slot : Nat), slot < 6 →
      (s (0x10 + slot * 4)).implMask = 0 → (s (0x10 + slot * 4)).flags = 0 →
      (EndpointHeader.bar simDevice hdr slot s).1 = .ok none)
    ∧ (EndpointHeader.bar simDevice ⟨⟨0⟩⟩ 0 dev64zero).1 = .panicked := by
  refine ⟨?_, by decide⟩
  intro s hdr slot h6 hm hf
  have hread : simDevice.read s hdr.addr (0x10 + slot * 4) = 0 := by
    show (s (0x10 + slot * 4)).readReg = 0
    rw [SimBar.readReg, hm, hf]
    simp
  have hread2 : simDevice.read
      (simDevice.write s hdr.addr (0x10 + slot * 4) 0xfffffff0) hdr.addr
      (0x10 + slot * 4) = 0 := by
    show (if 0x10 + slot * 4 = 0x10 + slot * 4 then
        (s (0x10 + slot * 4)).writeReg 0xfffffff0
      else s (0x10 + slot * 4)).readReg = 0
    rw [if_pos rfl, SimBar.readReg, SimBar.writeReg]
    simp [hm, hf]
  rw [EndpointHeader.bar, if_neg (by omega)]
  simp only [hread, hread2]
  norm_num [getBit, getBits]

/-- C2 witness: an all-zero (raw readback zero) simulated slot decodes to
absence. -/
theorem bar_unimplemented_raw_zero_readback_witness :
    (EndpointHeader.bar simDevice ⟨⟨0⟩⟩ 3 (fun _ => ⟨0, 0, 0⟩)).1 = .ok none :=
  bar_unimplemented_raw_zero_readback.1 (fun _ => ⟨0, 0, 0⟩) ⟨⟨0⟩⟩ 3 (by omega) rfl rfl

/-! ## C1 — the sizing probe restores the BAR registers -/

theorem SimBar.Wf.mask_bit_low {r : SimBar} (h : r.Wf) (i : Nat) (hi : i < 4) :
    r.implMask.testBit i = false := by
  have h16 := h.mask_low
  rw [Nat.testBit_to_div_mod]
  simp only [decide_eq_false_iff_not]
  interval_cases i <;> norm_num <;> omega

theorem SimBar.Wf.stored_bit {r : SimBar} (h : r.Wf) (i : Nat) :
    r.stored.testBit i = (r.stored.testBit i && r.implMask.testBit i) := by
  conv_lhs => rw [← h.stored_sub]
  simp [Nat.testBit_and]

theorem SimBar.Wf.flags_bit {r : SimBar} (h : r.Wf) (i : Nat) :
    (r.flags.testBit i && r.implMask.testBit i) = false := by
  have := congrArg (fun n => n.testBit i) h.flags_disj
  simpa [Nat.testBit_and] using this

theorem SimBar.Wf.stored_lt {r : SimBar} (h : r.Wf) : r.stored < 2 ^ 32 := by
  calc r.stored = r.stored &&& r.implMask := h.stored_sub.symm
    _ ≤ r.implMask := Nat.and_le_right
    _ < 2 ^ 32 := h.mask_lt

/-- Writing back the raw value read from a well-formed simulated BAR
register restores its stored address bits exactly. -/
theorem SimBar.restore_plain {r : SimBar} (h : r.Wf) :
    r.readReg &&& r.implMask = r.stored := by
  apply Nat.eq_of_testBit_eq
  intro i
  simp only [SimBar.readReg, Nat.testBit_and, Nat.testBit_or]
  have hs := h.stored_bit i
  have hf := h.flags_bit i
  cases hst : r.stored.testBit i <;> cases hm : r.implMask.testBit i <;>
    cases hfl : r.flags.testBit i <;> simp_all

/-- Writing back the read value with its low four bits cleared (the
`address` computed by the BAR decoder) also restores the stored address
bits exactly: the cleared bits were never writable. -/
theorem SimBar.restore_masked {r : SimBar} (h : r.Wf) :
    (getBits r.readReg 4 32 <<< 4) &&& r.implMask = r.stored := by
  apply Nat.eq_of_testBit_eq
  intro i
  simp only [Nat.testBit_and, Nat.testBit_shiftLeft, getBits, Nat.testBit_mod_two_pow,
    Nat.testBit_shiftRight, SimBar.readReg, Nat.testBit_or, ge_iff_le]
  rcases Nat.lt_or_ge i 4 with h4 | h4
  · have hm := h.mask_bit_low i h4
    have hs := h.stored_bit i
    rw [hm] at hs
    simp only [Bool.and_false] at hs
    simp [Nat.not_le.mpr h4, hm, hs]
  rcases Nat.lt_or_ge i 32 with h32 | h32
  · have e1 : 4 + (i - 4) = i := by omega
    have e2 : i - 4 < 32 - 4 := by omega
    have hs := h.stored_bit i
    have hf := h.flags_bit i
    rw [e1]
    cases hst : r.stored.testBit i <;> cases hm : r.implMask.testBit i <;>
      cases hfl : r.flags.testBit i <;> simp_all [h4, e2]
  · have e2 : ¬ (i - 4 < 32 - 4) := by omega
    have hst : r.stored.testBit i = false :=
      Nat.testBit_lt_two_pow
        (Nat.lt_of_lt_of_le h.stored_lt (Nat.pow_le_pow_right (by omega) h32))
    simp [e2, hst]

/-- The 32-bit sizing probe (write all-ones, then write back the
low-bits-cleared original read) leaves a well-formed simulated register
bank unchanged. -/
theorem simDevice_probe32_restore (s : SimDev) (hwf : SimDev.Wf s)
    (a : PciAddress) (off : Nat) :
    simDevice.write (simDevice.write s a off 0xfffffff0) a off
      (getBits (simDevice.read s a off) 4 32 <<< 4) = s := by
  funext o
  simp only [simDevice, SimBar.writeReg]
  by_cases ho : o = off
  · simp [ho]
    rw [SimBar.restore_masked (hwf off)]
  · simp [ho]

/-- The 64-bit sizing probe (write all-ones to both words, then write back
the low-bits-cleared original low read and the raw original high read)
leaves a well-formed simulated register bank unchanged. -/
theorem simDevice_probe64_restore (s : SimDev) (hwf : SimDev.Wf s)
    (a : PciAddress) (off : Nat) :
    simDevice.write (simDevice.write (simDevice.write (simDevice.write s a off
      0xfffffff0) a (off + 4) 0xffffffff) a off
      (getBits (simDevice.read s a off) 4 32 <<< 4)) a (off + 4)
      (simDevice.read s a (off + 4)) = s := by
  have hne : off + 4 ≠ off := by omega
  funext o
  simp only [simDevice, SimBar.writeReg]
  by_cases ho4 : o = off + 4
  · simp [ho4, hne]
    rw [SimBar.restore_plain (hwf (off + 4))]
  · by_cases ho : o = off
    · simp [ho, hne, show ¬ off = off + 4 by omega]
      rw [SimBar.restore_masked (hwf off)]
    · simp [ho, ho4]

/-- C1: on a well-formed simulated BAR register bank, `EndpointHeader::bar`
leaves the device state exactly as it found it, for every slot and every
outcome (decoded BAR, absence, or panic): both sizing probes restore the
original register value(s) before returning. -/
theorem bar_sizing_restores_state (s : SimDev) (hwf : SimDev.Wf s)
    (hdr : EndpointHeader) (slot : Nat) :
    (EndpointHeader.bar simDevice hdr slot s).2 = s := by
  have h32 := simDevice_probe32_restore s hwf hdr.addr (0x10 + slot * 4)
  have h64 := simDevice_probe64_restore s hwf hdr.addr (0x10 + slot * 4)
  rw [EndpointHeader.bar]
  by_cases h6 : 6 ≤ slot
  · rw [if_pos h6]
  rw [if_neg h6]
  simp only
  repeat' split
  all_goals first | rfl | exact h32 | exact h64

/-- C1 witness: a bank holding a well-formed 4 KiB 32-bit memory BAR in
slot 0. -/
def devC1 : SimDev := fun off =>
  if off = 0x10 then ⟨0xfffff000, 0xfebc1000, 8⟩ else ⟨0, 0, 0⟩

theorem bar_sizing_restores_state_witness :
    (EndpointHeader.bar simDevice ⟨⟨0⟩⟩ 0 devC1).2 = devC1 :=
  bar_sizing_restores_state devC1
    (by
      intro off
      show SimBar.Wf (if off = 0x10 then _ else _)
      by_cases h : off = 0x10 <;> simp only [h, if_pos, if_neg, if_true, if_false] <;>
        exact ⟨by decide, by decide, by decide, by decide, by decide⟩)
    ⟨⟨0⟩⟩ 0

end PciTypes



